import Mathlib

/-!
# Point-Set Alignment Engine: shallow embedding and verification

Shallow embedding of the alignment functions `computeCentroid`,
`computeOptimalRotation` (Horn's quaternion method with a 50-step power
iteration) and `computeRigidTransformFromPoints` from the Vitrine3D
repository.  JavaScript `number` arithmetic is modelled by exact real
arithmetic on `ℝ`; the spec's numeric tolerances absorb floating-point
rounding, while every structural property (guards, fallbacks, composition
order) is translated verbatim from the source.  The two loops that index
`targetPoints[i]` / `dstObjs[i]` by the source index are embedded as folds
over `List.zip`, which agrees with the source whenever the two lists have
equal length (the precondition every claim assumes); an explicitly
index-checked variant (`Option`-valued, failing exactly when an access
would fall out of bounds) is given as well and proved to agree.
-/

noncomputable section

/-- A 3-D point, mirroring the source's `Point3D` record `{x, y, z}`. -/
@[ext] structure Point3D where
  x : ℝ
  y : ℝ
  z : ℝ

/-- A 4-vector holding a quaternion candidate `[w, x, y, z]`, the array `q`
of the source's power iteration. -/
@[ext] structure Quat4 where
  w : ℝ
  x : ℝ
  y : ℝ
  z : ℝ

/-- Squared euclidean norm of a quaternion candidate. -/
def Quat4.normSq (q : Quat4) : ℝ :=
  q.w * q.w + q.x * q.x + q.y * q.y + q.z * q.z

/-- A 3x3 matrix with named entries (row-major), used for the covariance
matrix `h` and for the upper-left block of 4x4 matrices. -/
@[ext] structure Mat3 where
  m11 : ℝ
  m12 : ℝ
  m13 : ℝ
  m21 : ℝ
  m22 : ℝ
  m23 : ℝ
  m31 : ℝ
  m32 : ℝ
  m33 : ℝ

namespace Mat3

/-- The zero matrix: the initialisation `h = [[0,0,0],[0,0,0],[0,0,0]]`. -/
def zero : Mat3 := ⟨0, 0, 0, 0, 0, 0, 0, 0, 0⟩

/-- The 3x3 identity matrix. -/
def identity : Mat3 := ⟨1, 0, 0, 0, 1, 0, 0, 0, 1⟩

/-- Matrix product. -/
def mul (a b : Mat3) : Mat3 :=
  ⟨a.m11 * b.m11 + a.m12 * b.m21 + a.m13 * b.m31,
   a.m11 * b.m12 + a.m12 * b.m22 + a.m13 * b.m32,
   a.m11 * b.m13 + a.m12 * b.m23 + a.m13 * b.m33,
   a.m21 * b.m11 + a.m22 * b.m21 + a.m23 * b.m31,
   a.m21 * b.m12 + a.m22 * b.m22 + a.m23 * b.m32,
   a.m21 * b.m13 + a.m22 * b.m23 + a.m23 * b.m33,
   a.m31 * b.m11 + a.m32 * b.m21 + a.m33 * b.m31,
   a.m31 * b.m12 + a.m32 * b.m22 + a.m33 * b.m32,
   a.m31 * b.m13 + a.m32 * b.m23 + a.m33 * b.m33⟩

/-- Transpose. -/
def transpose (a : Mat3) : Mat3 :=
  ⟨a.m11, a.m21, a.m31, a.m12, a.m22, a.m32, a.m13, a.m23, a.m33⟩

/-- Determinant (cofactor expansion along the first row). -/
def det (a : Mat3) : ℝ :=
  a.m11 * (a.m22 * a.m33 - a.m23 * a.m32)
    - a.m12 * (a.m21 * a.m33 - a.m23 * a.m31)
    + a.m13 * (a.m21 * a.m32 - a.m22 * a.m31)

/-- Action on a 3-vector (a point). -/
def mulVec (a : Mat3) (p : Point3D) : Point3D :=
  ⟨a.m11 * p.x + a.m12 * p.y + a.m13 * p.z,
   a.m21 * p.x + a.m22 * p.y + a.m23 * p.z,
   a.m31 * p.x + a.m32 * p.y + a.m33 * p.z⟩

/-- Trace. -/
def trace (a : Mat3) : ℝ := a.m11 + a.m22 + a.m33

end Mat3

/-- A 4x4 matrix with named entries (row-major), mirroring `THREE.Matrix4`
as populated via its row-major `set(n11, ..., n44)` method.  It also holds
the 4x4 key matrix `n` of Horn's method (a plain array in the source). -/
@[ext] structure Mat4 where
  m11 : ℝ
  m12 : ℝ
  m13 : ℝ
  m14 : ℝ
  m21 : ℝ
  m22 : ℝ
  m23 : ℝ
  m24 : ℝ
  m31 : ℝ
  m32 : ℝ
  m33 : ℝ
  m34 : ℝ
  m41 : ℝ
  m42 : ℝ
  m43 : ℝ
  m44 : ℝ

namespace Mat4

/-- The identity matrix (a fresh `new THREE.Matrix4()`). -/
def identity : Mat4 := ⟨1, 0, 0, 0, 0, 1, 0, 0, 0, 0, 1, 0, 0, 0, 0, 1⟩

/-- Matrix product, `a.multiply(b)` in THREE (this * m). -/
def mul (a b : Mat4) : Mat4 :=
  ⟨a.m11 * b.m11 + a.m12 * b.m21 + a.m13 * b.m31 + a.m14 * b.m41,
   a.m11 * b.m12 + a.m12 * b.m22 + a.m13 * b.m32 + a.m14 * b.m42,
   a.m11 * b.m13 + a.m12 * b.m23 + a.m13 * b.m33 + a.m14 * b.m43,
   a.m11 * b.m14 + a.m12 * b.m24 + a.m13 * b.m34 + a.m14 * b.m44,
   a.m21 * b.m11 + a.m22 * b.m21 + a.m23 * b.m31 + a.m24 * b.m41,
   a.m21 * b.m12 + a.m22 * b.m22 + a.m23 * b.m32 + a.m24 * b.m42,
   a.m21 * b.m13 + a.m22 * b.m23 + a.m23 * b.m33 + a.m24 * b.m43,
   a.m21 * b.m14 + a.m22 * b.m24 + a.m23 * b.m34 + a.m24 * b.m44,
   a.m31 * b.m11 + a.m32 * b.m21 + a.m33 * b.m31 + a.m34 * b.m41,
   a.m31 * b.m12 + a.m32 * b.m22 + a.m33 * b.m32 + a.m34 * b.m42,
   a.m31 * b.m13 + a.m32 * b.m23 + a.m33 * b.m33 + a.m34 * b.m43,
   a.m31 * b.m14 + a.m32 * b.m24 + a.m33 * b.m34 + a.m34 * b.m44,
   a.m41 * b.m11 + a.m42 * b.m21 + a.m43 * b.m31 + a.m44 * b.m41,
   a.m41 * b.m12 + a.m42 * b.m22 + a.m43 * b.m32 + a.m44 * b.m42,
   a.m41 * b.m13 + a.m42 * b.m23 + a.m43 * b.m33 + a.m44 * b.m43,
   a.m41 * b.m14 + a.m42 * b.m24 + a.m43 * b.m34 + a.m44 * b.m44⟩

/-- `new THREE.Matrix4().makeScale(sx, sy, sz)`. -/
def makeScale (sx sy sz : ℝ) : Mat4 :=
  ⟨sx, 0, 0, 0, 0, sy, 0, 0, 0, 0, sz, 0, 0, 0, 0, 1⟩

/-- `new THREE.Matrix4().makeTranslation(tx, ty, tz)`. -/
def makeTranslation (tx ty tz : ℝ) : Mat4 :=
  ⟨1, 0, 0, tx, 0, 1, 0, ty, 0, 0, 1, tz, 0, 0, 0, 1⟩

/-- Upper-left 3x3 block. -/
def upper3 (a : Mat4) : Mat3 :=
  ⟨a.m11, a.m12, a.m13, a.m21, a.m22, a.m23, a.m31, a.m32, a.m33⟩

/-- Multiplication of the 4x4 key matrix by a quaternion candidate:
`newQ[j] = Σ_k n[j][k] * q[k]`, the matrix-vector product inside the
power-iteration loop. -/
def mulQuat (n : Mat4) (q : Quat4) : Quat4 :=
  ⟨n.m11 * q.w + n.m12 * q.x + n.m13 * q.y + n.m14 * q.z,
   n.m21 * q.w + n.m22 * q.x + n.m23 * q.y + n.m24 * q.z,
   n.m31 * q.w + n.m32 * q.x + n.m33 * q.y + n.m34 * q.z,
   n.m41 * q.w + n.m42 * q.x + n.m43 * q.y + n.m44 * q.z⟩

end Mat4

/-- `THREE.Vector3.applyMatrix4`: applies the full homogeneous matrix with
perspective division by the resulting `w` component. -/
def applyMat4 (m : Mat4) (p : Point3D) : Point3D :=
  let w := m.m41 * p.x + m.m42 * p.y + m.m43 * p.z + m.m44
  ⟨(m.m11 * p.x + m.m12 * p.y + m.m13 * p.z + m.m14) / w,
   (m.m21 * p.x + m.m22 * p.y + m.m23 * p.z + m.m24) / w,
   (m.m31 * p.x + m.m32 * p.y + m.m33 * p.z + m.m34) / w⟩

/-- `computeCentroid(points)`: accumulate component sums, divide by the
length.  The source performs the division unconditionally, also for the
empty list (where the JavaScript result is `0/0 = NaN`; in the exact
real-arithmetic embedding Lean's division-by-zero convention yields 0). -/
def computeCentroid (points : List Point3D) : Point3D :=
  let s := points.foldl
    (fun (acc : ℝ × ℝ × ℝ) p => (acc.1 + p.x, acc.2.1 + p.y, acc.2.2 + p.z))
    (0, 0, 0)
  ⟨s.1 / (points.length : ℝ), s.2.1 / (points.length : ℝ), s.2.2 / (points.length : ℝ)⟩

/-- One accumulation step of the covariance matrix `h`: adds the outer
product of the centered source point and the centered target point. -/
def hStep (sc tc : Point3D) (h : Mat3) (st : Point3D × Point3D) : Mat3 :=
  let sx := st.1.x - sc.x
  let sy := st.1.y - sc.y
  let sz := st.1.z - sc.z
  let tx := st.2.x - tc.x
  let ty := st.2.y - tc.y
  let tz := st.2.z - tc.z
  ⟨h.m11 + sx * tx, h.m12 + sx * ty, h.m13 + sx * tz,
   h.m21 + sy * tx, h.m22 + sy * ty, h.m23 + sy * tz,
   h.m31 + sz * tx, h.m32 + sz * ty, h.m33 + sz * tz⟩

/-- The covariance-matrix loop of `computeOptimalRotation`: iterates over
the index-paired points (the source indexes `targetPoints[i]` by the source
index; for equal-length lists this is exactly the zip). -/
def buildH (src tgt : List Point3D) (sc tc : Point3D) : Mat3 :=
  (src.zip tgt).foldl (hStep sc tc) Mat3.zero

/-- Horn's 4x4 key matrix `n` built from the covariance matrix entries
`n11 .. n33`, verbatim from the source. -/
def buildN (h : Mat3) : Mat4 :=
  ⟨h.m11 + h.m22 + h.m33, h.m23 - h.m32, h.m31 - h.m13, h.m12 - h.m21,
   h.m23 - h.m32, h.m11 - h.m22 - h.m33, h.m12 + h.m21, h.m31 + h.m13,
   h.m31 - h.m13, h.m12 + h.m21, -h.m11 + h.m22 - h.m33, h.m23 + h.m32,
   h.m12 - h.m21, h.m31 + h.m13, h.m23 + h.m32, -h.m11 - h.m22 + h.m33⟩

/-- The power-iteration loop (`for iter = 0; iter < 50; ...`), with the
remaining iteration count as fuel: multiply by `n`, compute the euclidean
norm of the result, and if the norm falls below the `1e-10` floor keep the
current estimate and stop (`break`); otherwise renormalise and continue. -/
def powerLoop (n : Mat4) : ℕ → Quat4 → Quat4
  | 0, q => q
  | k + 1, q =>
    let nq := n.mulQuat q
    let len := Real.sqrt nq.normSq
    if len < 1e-10 then q
    else powerLoop n k ⟨nq.w / len, nq.x / len, nq.y / len, nq.z / len⟩

/-- Quaternion-to-rotation-matrix conversion, verbatim from the source's
`rotMatrix.set(...)` call (row-major). -/
def quatToMat4 (q : Quat4) : Mat4 :=
  ⟨1 - 2 * q.y * q.y - 2 * q.z * q.z, 2 * q.x * q.y - 2 * q.z * q.w,
     2 * q.x * q.z + 2 * q.y * q.w, 0,
   2 * q.x * q.y + 2 * q.z * q.w, 1 - 2 * q.x * q.x - 2 * q.z * q.z,
     2 * q.y * q.z - 2 * q.x * q.w, 0,
   2 * q.x * q.z - 2 * q.y * q.w, 2 * q.y * q.z + 2 * q.x * q.w,
     1 - 2 * q.x * q.x - 2 * q.y * q.y, 0,
   0, 0, 0, 1⟩

/-- `computeOptimalRotation(sourcePoints, targetPoints, sourceCentroid,
targetCentroid)`: build `h`, build `n`, run 50 power iterations from the
seed quaternion `[1, 0, 0, 0]`, convert the result to a 4x4 matrix. -/
def computeOptimalRotation (src tgt : List Point3D) (sc tc : Point3D) : Mat4 :=
  quatToMat4 (powerLoop (buildN (buildH src tgt sc tc)) 50 ⟨1, 0, 0, 0⟩)

/-- One step of the spread loop of `computeRigidTransformFromPoints`:
accumulates the squared centered source and destination distances for one
index-paired couple. -/
def spreadStep (sc dc : Point3D) (acc : ℝ × ℝ) (sd : Point3D × Point3D) : ℝ × ℝ :=
  (acc.1 + ((sd.1.x - sc.x) * (sd.1.x - sc.x) + (sd.1.y - sc.y) * (sd.1.y - sc.y)
      + (sd.1.z - sc.z) * (sd.1.z - sc.z)),
   acc.2 + ((sd.2.x - dc.x) * (sd.2.x - dc.x) + (sd.2.y - dc.y) * (sd.2.y - dc.y)
      + (sd.2.z - dc.z) * (sd.2.z - dc.z)))

/-- The spread loop: `srcSpreadSq` and `dstSpreadSq` accumulated together
over the index-paired points (again the source indexes `dstObjs[i]` by the
source index; the zip agrees for equal-length lists). -/
def spreadPair (src dst : List Point3D) (sc dc : Point3D) : ℝ × ℝ :=
  (src.zip dst).foldl (spreadStep sc dc) (0, 0)

/-- The scale estimator: `scale = 1`, overwritten with
`sqrt(dstSpreadSq / srcSpreadSq)` only when `srcSpreadSq > 1e-10`. -/
def scaleOf (srcSpreadSq dstSpreadSq : ℝ) : ℝ :=
  if srcSpreadSq > 1e-10 then Real.sqrt (dstSpreadSq / srcSpreadSq) else 1

/-- `computeRigidTransformFromPoints(srcPts, dstPts)`: centroids, optimal
rotation, spread-based uniform scale with the `1e-10` floor, translation
`dstCentroid - scale * R * srcCentroid` (the source applies the rotation
matrix via `applyMatrix4` and then `multiplyScalar(scale)`), and the final
composition `result = transMat * scaleMat * rotMatrix`. -/
def computeRigidTransformFromPoints (src dst : List Point3D) : Mat4 :=
  let srcCentroid := computeCentroid src
  let dstCentroid := computeCentroid dst
  let rotMatrix := computeOptimalRotation src dst srcCentroid dstCentroid
  let sp := spreadPair src dst srcCentroid dstCentroid
  let scale := scaleOf sp.1 sp.2
  let r := applyMat4 rotMatrix srcCentroid
  let rotatedSrcCentroid : Point3D := ⟨scale * r.x, scale * r.y, scale * r.z⟩
  let translation : Point3D :=
    ⟨dstCentroid.x - rotatedSrcCentroid.x,
     dstCentroid.y - rotatedSrcCentroid.y,
     dstCentroid.z - rotatedSrcCentroid.z⟩
  ((Mat4.makeTranslation translation.x translation.y translation.z).mul
      (Mat4.makeScale scale scale scale)).mul rotMatrix

end

/-- Symmetry of a 3x3 matrix. -/
def Mat3.Symm (m : Mat3) : Prop :=
  m.m12 = m.m21 ∧ m.m13 = m.m31 ∧ m.m23 = m.m32

/-- Squared distance of a point from a center, written with plain products
as in the source's spread loop. -/
def dist2 (c p : Point3D) : ℝ :=
  (p.x - c.x) * (p.x - c.x) + (p.y - c.y) * (p.y - c.y) + (p.z - c.z) * (p.z - c.z)

/-- A uniform scale by `k` followed by a translation by `t`. -/
def affineMap (k : ℝ) (t : Point3D) (p : Point3D) : Point3D :=
  ⟨k * p.x + t.x, k * p.y + t.y, k * p.z + t.z⟩

/-- A pair of centered points is proportional with ratio `k`. -/
def PairProp (sc tc : Point3D) (k : ℝ) (st : Point3D × Point3D) : Prop :=
  st.2.x - tc.x = k * (st.1.x - sc.x) ∧ st.2.y - tc.y = k * (st.1.y - sc.y)
    ∧ st.2.z - tc.z = k * (st.1.z - sc.z)
/-- The uniform scale exactly as worded by the spec: square root of the
ratio of destination spread to source spread, defaulting to 1 below the
1e-10 floor. -/
noncomputable def specScale (src dst : List Point3D) : ℝ :=
  if (spreadPair src dst (computeCentroid src) (computeCentroid dst)).1 > 1e-10 then
    Real.sqrt ((spreadPair src dst (computeCentroid src) (computeCentroid dst)).2
      / (spreadPair src dst (computeCentroid src) (computeCentroid dst)).1)
  else 1

/-- The translation exactly as worded by the spec:
`destCentroid - scale * (R * sourceCentroid)`, the rotation acting through
its upper-left 3x3 block. -/
noncomputable def specTranslation (src dst : List Point3D) : Point3D :=
  ⟨(computeCentroid dst).x - specScale src dst
      * (Mat3.mulVec (Mat4.upper3 (computeOptimalRotation src dst (computeCentroid src)
          (computeCentroid dst))) (computeCentroid src)).x,
   (computeCentroid dst).y - specScale src dst
      * (Mat3.mulVec (Mat4.upper3 (computeOptimalRotation src dst (computeCentroid src)
          (computeCentroid dst))) (computeCentroid src)).y,
   (computeCentroid dst).z - specScale src dst
      * (Mat3.mulVec (Mat4.upper3 (computeOptimalRotation src dst (computeCentroid src)
          (computeCentroid dst))) (computeCentroid src)).z⟩

/-- The spec's composed similarity transform `M = T * S * R`. -/
noncomputable def specCompose (src dst : List Point3D) : Mat4 :=
  (Mat4.makeTranslation (specTranslation src dst).x (specTranslation src dst).y
      (specTranslation src dst).z).mul
    ((Mat4.makeScale (specScale src dst) (specScale src dst) (specScale src dst)).mul
      (computeOptimalRotation src dst (computeCentroid src) (computeCentroid dst)))
noncomputable section

/-- Centroid with the empty-list division modelled as a failure (`NaN`). -/
def computeCentroidChecked (points : List Point3D) : Option Point3D :=
  if points.isEmpty then none else some (computeCentroid points)

/-- The covariance loop driven by the source list, with the
`targetPoints[i]` access failing when the target list is exhausted. -/
def buildHCheckedAux (sc tc : Point3D) : List Point3D → List Point3D → Mat3 → Option Mat3
  | [], _, h => some h
  | _ :: _, [], _ => none
  | s :: ss, t :: ts, h => buildHCheckedAux sc tc ss ts (hStep sc tc h (s, t))

/-- Index-checked covariance matrix. -/
def buildHChecked (src tgt : List Point3D) (sc tc : Point3D) : Option Mat3 :=
  buildHCheckedAux sc tc src tgt Mat3.zero

/-- Index-checked `computeOptimalRotation`. -/
def computeOptimalRotationChecked (src tgt : List Point3D) (sc tc : Point3D) : Option Mat4 :=
  (buildHChecked src tgt sc tc).map fun h =>
    quatToMat4 (powerLoop (buildN h) 50 ⟨1, 0, 0, 0⟩)

/-- The spread loop driven by the source list, with the `dstObjs[i]`
access failing when the destination list is exhausted. -/
def spreadCheckedAux (sc dc : Point3D) :
    List Point3D → List Point3D → ℝ × ℝ → Option (ℝ × ℝ)
  | [], _, acc => some acc
  | _ :: _, [], _ => none
  | s :: ss, d :: ds, acc => spreadCheckedAux sc dc ss ds (spreadStep sc dc acc (s, d))

/-- Index-checked `computeRigidTransformFromPoints`. -/
def computeRigidTransformFromPointsChecked (src dst : List Point3D) : Option Mat4 := do
  let sc ← computeCentroidChecked src
  let dc ← computeCentroidChecked dst
  let rot ← computeOptimalRotationChecked src dst sc dc
  let sp ← spreadCheckedAux sc dc src dst (0, 0)
  let scale := scaleOf sp.1 sp.2
  let r := applyMat4 rot sc
  let rotatedSrcCentroid : Point3D := ⟨scale * r.x, scale * r.y, scale * r.z⟩
  let translation : Point3D :=
    ⟨dc.x - rotatedSrcCentroid.x, dc.y - rotatedSrcCentroid.y, dc.z - rotatedSrcCentroid.z⟩
  pure (((Mat4.makeTranslation translation.x translation.y translation.z).mul
      (Mat4.makeScale scale scale scale)).mul rot)

end
noncomputable section

/-- Concrete source of the scenario: the three unit basis vectors. -/
def c7src : List Point3D := [⟨1, 0, 0⟩, ⟨0, 1, 0⟩, ⟨0, 0, 1⟩]

/-- Concrete destination: the basis vectors rotated 90 degrees about Z. -/
def c7dst : List Point3D := [⟨0, 1, 0⟩, ⟨-1, 0, 0⟩, ⟨0, 0, 1⟩]

/-- The key matrix of Horn's method arising in this scenario. -/
def c7N : Mat4 := ⟨1, 0, 0, 2, 0, -1, 0, 0, 0, 0, -1, 0, 2, 0, 0, 1⟩

/-- Closed form of the unnormalised `w` component after `k` iterations. -/
def c7w (k : ℕ) : ℝ := ((3 : ℝ) ^ k + (-1) ^ k) / 2

/-- Closed form of the unnormalised `z` component after `k` iterations. -/
def c7z (k : ℕ) : ℝ := ((3 : ℝ) ^ k - (-1) ^ k) / 2

/-- Norm of the unnormalised iterate. -/
def c7n (k : ℕ) : ℝ := Real.sqrt (c7w k ^ 2 + c7z k ^ 2)

end

/-!
## Basic lemmas: the quaternion-to-matrix conversion of a unit quaternion
is orthonormal and proper, and the power iteration preserves unit norm.
-/

theorem Quat4.normSq_nonneg (q : Quat4) : 0 ≤ q.normSq := by
  unfold Quat4.normSq
  nlinarith [mul_self_nonneg q.w, mul_self_nonneg q.x, mul_self_nonneg q.y,
    mul_self_nonneg q.z]

theorem quatToMat4_mul_transpose (w x y z : ℝ) (h : w ^ 2 + x ^ 2 + y ^ 2 + z ^ 2 = 1) :
    Mat3.mul (Mat4.upper3 (quatToMat4 ⟨w, x, y, z⟩))
      (Mat3.transpose (Mat4.upper3 (quatToMat4 ⟨w, x, y, z⟩))) = Mat3.identity := by
  unfold quatToMat4 Mat4.upper3 Mat3.mul Mat3.transpose Mat3.identity
  rw [Mat3.mk.injEq]
  refine ⟨?_, ?_, ?_, ?_, ?_, ?_, ?_, ?_, ?_⟩
  · linear_combination (4 * y ^ 2 + 4 * z ^ 2) * h
  · linear_combination (-4 * x * y) * h
  · linear_combination (-4 * x * z) * h
  · linear_combination (-4 * x * y) * h
  · linear_combination (4 * x ^ 2 + 4 * z ^ 2) * h
  · linear_combination (-4 * y * z) * h
  · linear_combination (-4 * x * z) * h
  · linear_combination (-4 * y * z) * h
  · linear_combination (4 * x ^ 2 + 4 * y ^ 2) * h

theorem quatToMat4_det (w x y z : ℝ) (h : w ^ 2 + x ^ 2 + y ^ 2 + z ^ 2 = 1) :
    Mat3.det (Mat4.upper3 (quatToMat4 ⟨w, x, y, z⟩)) = 1 := by
  unfold quatToMat4 Mat4.upper3 Mat3.det
  linear_combination (4 * x ^ 2 + 4 * y ^ 2 + 4 * z ^ 2) * h

theorem powerLoop_normSq (n : Mat4) :
    ∀ (k : ℕ) (q : Quat4), q.normSq = 1 → (powerLoop n k q).normSq = 1 := by
  intro k
  induction k with
  | zero => intro q hq; simpa [powerLoop] using hq
  | succ k ih =>
    intro q hq
    rw [powerLoop]
    split
    · exact hq
    · rename_i hge
      apply ih
      set nq := n.mulQuat q with hnq
      have hnn : 0 ≤ nq.normSq := Quat4.normSq_nonneg nq
      have hlen : Real.sqrt nq.normSq * Real.sqrt nq.normSq = nq.normSq :=
        Real.mul_self_sqrt hnn
      have hpos : (0 : ℝ) < Real.sqrt nq.normSq := by
        by_contra hc
        push_neg at hc
        have : Real.sqrt nq.normSq < 1e-10 := by
          have := Real.sqrt_nonneg nq.normSq
          nlinarith
        exact hge this
      have hne : Real.sqrt nq.normSq ≠ 0 := ne_of_gt hpos
      have hSne : nq.normSq ≠ 0 := by
        intro h0
        rw [h0, Real.sqrt_zero] at hpos
        exact lt_irrefl 0 hpos
      have hval : Quat4.normSq
          ⟨nq.w / Real.sqrt nq.normSq, nq.x / Real.sqrt nq.normSq,
           nq.y / Real.sqrt nq.normSq, nq.z / Real.sqrt nq.normSq⟩
          = nq.normSq / (Real.sqrt nq.normSq * Real.sqrt nq.normSq) := by
        unfold Quat4.normSq
        field_simp
      rw [hval, hlen, div_self hSne]

theorem powerLoop_seed_fixed (n : Mat4) (h21 : n.m21 = 0) (h31 : n.m31 = 0)
    (h41 : n.m41 = 0) (h11 : 0 ≤ n.m11) :
    ∀ k : ℕ, powerLoop n k ⟨1, 0, 0, 0⟩ = ⟨1, 0, 0, 0⟩ := by
  intro k
  induction k with
  | zero => rfl
  | succ k ih =>
    rw [powerLoop]
    have hmul : n.mulQuat ⟨1, 0, 0, 0⟩ = ⟨n.m11, 0, 0, 0⟩ := by
      unfold Mat4.mulQuat
      rw [Quat4.mk.injEq]
      refine ⟨by ring, ?_, ?_, ?_⟩ <;> simp [h21, h31, h41]
    rw [hmul]
    have hsq : Quat4.normSq ⟨n.m11, 0, 0, 0⟩ = n.m11 * n.m11 := by
      unfold Quat4.normSq
      ring
    rw [hsq]
    have hs : Real.sqrt (n.m11 * n.m11) = n.m11 := Real.sqrt_mul_self h11
    rw [hs]
    split
    · rfl
    · rename_i hge
      have hne : n.m11 ≠ 0 := by
        intro h0
        exact hge (by rw [h0]; norm_num)
      have : (⟨n.m11 / n.m11, 0 / n.m11, 0 / n.m11, 0 / n.m11⟩ : Quat4)
          = (⟨1, 0, 0, 0⟩ : Quat4) := by
        rw [Quat4.mk.injEq]
        refine ⟨div_self hne, by simp, by simp, by simp⟩
      rw [this]
      exact ih

/-!
## Structural lemmas: covariance matrices of proportional point pairs are
symmetric with nonnegative trace, which pins the power iteration at its
seed and makes the computed rotation the exact identity.
-/

theorem mem_zip_self {α : Type} : ∀ (l : List α) (st : α × α), st ∈ l.zip l → st.1 = st.2 := by
  intro l
  induction l with
  | nil => intro st h; simp at h
  | cons a l ih =>
    intro st h
    rcases List.mem_cons.mp h with h1 | h2
    · rw [h1]
    · exact ih st h2

theorem mem_zip_map {α β : Type} (f : α → β) :
    ∀ (l : List α) (st : α × β), st ∈ l.zip (l.map f) → st.2 = f st.1 := by
  intro l
  induction l with
  | nil => intro st h; simp at h
  | cons a l ih =>
    intro st h
    simp only [List.map_cons, List.zip_cons_cons, List.mem_cons] at h
    rcases h with h1 | h2
    · rw [h1]
    · exact ih st h2

theorem mem_zip_replicate {α β : Type} (q : β) :
    ∀ (l : List α) (n : ℕ) (st : α × β), st ∈ l.zip (List.replicate n q) → st.2 = q := by
  intro l
  induction l with
  | nil => intro n st h; simp at h
  | cons a l ih =>
    intro n st h
    cases n with
    | zero => simp [List.replicate] at h
    | succ n =>
      simp only [List.replicate, List.zip_cons_cons, List.mem_cons] at h
      rcases h with h1 | h2
      · rw [h1]
      · exact ih n st h2

theorem hfold_symm_trace (sc tc : Point3D) :
    ∀ (l : List (Point3D × Point3D)),
      (∀ st ∈ l, ∃ k : ℝ, 0 ≤ k ∧ PairProp sc tc k st) →
      ∀ acc : Mat3, acc.Symm → 0 ≤ acc.trace →
        (l.foldl (hStep sc tc) acc).Symm ∧ 0 ≤ (l.foldl (hStep sc tc) acc).trace := by
  intro l
  induction l with
  | nil => intro _ acc hs ht; exact ⟨hs, ht⟩
  | cons st l ih =>
    intro hl acc hs ht
    rw [List.foldl_cons]
    obtain ⟨k, hk, hx, hy, hz⟩ := hl st (List.mem_cons_self st l)
    refine ih (fun st hst => hl st (List.mem_cons_of_mem _ hst)) _ ?_ ?_
    · obtain ⟨h12, h13, h23⟩ := hs
      unfold hStep Mat3.Symm
      dsimp only
      rw [hx, hy, hz]
      refine ⟨by rw [h12]; ring, by rw [h13]; ring, by rw [h23]; ring⟩
    · unfold hStep Mat3.trace at *
      dsimp only
      rw [hx, hy, hz]
      nlinarith [mul_self_nonneg (st.1.x - sc.x), mul_self_nonneg (st.1.y - sc.y),
        mul_self_nonneg (st.1.z - sc.z), mul_nonneg hk (mul_self_nonneg (st.1.x - sc.x)),
        mul_nonneg hk (mul_self_nonneg (st.1.y - sc.y)),
        mul_nonneg hk (mul_self_nonneg (st.1.z - sc.z))]

theorem quatToMat4_seed : quatToMat4 ⟨1, 0, 0, 0⟩ = Mat4.identity := by
  unfold quatToMat4 Mat4.identity
  rw [Mat4.mk.injEq]
  norm_num

/-- If the covariance matrix is symmetric with nonnegative trace, the first
matrix-vector product of the power iteration is a nonnegative multiple of
the seed `[1,0,0,0]`, so every iteration either renormalises back to the
seed or underflows and keeps it: the computed rotation is the identity. -/
theorem rotation_identity_of_symm (src tgt : List Point3D) (sc tc : Point3D)
    (hs : (buildH src tgt sc tc).Symm) (ht : 0 ≤ (buildH src tgt sc tc).trace) :
    computeOptimalRotation src tgt sc tc = Mat4.identity := by
  unfold computeOptimalRotation
  obtain ⟨h12, h13, h23⟩ := hs
  rw [powerLoop_seed_fixed, quatToMat4_seed]
  · unfold buildN
    dsimp only
    rw [h23]
    ring
  · unfold buildN
    dsimp only
    rw [h13]
    ring
  · unfold buildN
    dsimp only
    rw [h12]
    ring
  · unfold buildN
    dsimp only
    exact ht

/-!
## Spread and centroid lemmas.
-/

theorem dist2_nonneg (c p : Point3D) : 0 ≤ dist2 c p := by
  unfold dist2
  nlinarith [mul_self_nonneg (p.x - c.x), mul_self_nonneg (p.y - c.y),
    mul_self_nonneg (p.z - c.z)]

theorem dist2_self (c : Point3D) : dist2 c c = 0 := by
  unfold dist2
  ring

theorem spread_foldl_eq (sc dc : Point3D) :
    ∀ (l : List (Point3D × Point3D)) (acc : ℝ × ℝ),
      l.foldl (spreadStep sc dc) acc
        = (acc.1 + (l.map (fun sd => dist2 sc sd.1)).sum,
           acc.2 + (l.map (fun sd => dist2 dc sd.2)).sum) := by
  intro l
  induction l with
  | nil => intro acc; simp
  | cons sd l ih =>
    intro acc
    rw [List.foldl_cons, ih]
    unfold spreadStep dist2
    simp only [List.map_cons, List.sum_cons]
    rw [Prod.mk.injEq]
    constructor <;> ring

theorem spreadPair_eq (src dst : List Point3D) (sc dc : Point3D) :
    spreadPair src dst sc dc
      = (((src.zip dst).map (fun sd => dist2 sc sd.1)).sum,
         ((src.zip dst).map (fun sd => dist2 dc sd.2)).sum) := by
  unfold spreadPair
  rw [spread_foldl_eq]
  simp

theorem spreadPair_fst_nonneg (src dst : List Point3D) (sc dc : Point3D) :
    0 ≤ (spreadPair src dst sc dc).1 := by
  rw [spreadPair_eq]
  exact List.sum_nonneg (by
    intro a ha
    obtain ⟨sd, _, rfl⟩ := List.mem_map.mp ha
    exact dist2_nonneg sc sd.1)

theorem sum_map_mul {α : Type} (r : ℝ) (f : α → ℝ) :
    ∀ l : List α, (l.map (fun a => r * f a)).sum = r * (l.map f).sum := by
  intro l
  induction l with
  | nil => simp
  | cons a l ih =>
    simp only [List.map_cons, List.sum_cons, ih]
    ring

theorem centroid_foldl (l : List Point3D) :
    ∀ acc : ℝ × ℝ × ℝ,
      l.foldl (fun (acc : ℝ × ℝ × ℝ) p => (acc.1 + p.x, acc.2.1 + p.y, acc.2.2 + p.z)) acc
        = (acc.1 + (l.map Point3D.x).sum, acc.2.1 + (l.map Point3D.y).sum,
           acc.2.2 + (l.map Point3D.z).sum) := by
  induction l with
  | nil => intro acc; simp
  | cons p l ih =>
    intro acc
    rw [List.foldl_cons, ih]
    simp only [List.map_cons, List.sum_cons, Prod.mk.injEq]
    refine ⟨by ring, by ring, by ring⟩

theorem computeCentroid_eq (l : List Point3D) :
    computeCentroid l
      = ⟨(l.map Point3D.x).sum / (l.length : ℝ), (l.map Point3D.y).sum / (l.length : ℝ),
         (l.map Point3D.z).sum / (l.length : ℝ)⟩ := by
  unfold computeCentroid
  rw [centroid_foldl]
  simp

theorem computeCentroid_replicate (n : ℕ) (hn : n ≠ 0) (q : Point3D) :
    computeCentroid (List.replicate n q) = q := by
  rw [computeCentroid_eq]
  have hne : ((n : ℝ)) ≠ 0 := Nat.cast_ne_zero.mpr hn
  simp only [List.map_replicate, List.sum_replicate, List.length_replicate, nsmul_eq_mul]
  refine Point3D.ext ?_ ?_ ?_ <;> 
    exact mul_div_cancel_left₀ _ hne

theorem sum_map_affine (k c : ℝ) {α : Type} (g : α → ℝ) :
    ∀ l : List α, (l.map (fun a => k * g a + c)).sum = k * (l.map g).sum + (l.length : ℝ) * c := by
  intro l
  induction l with
  | nil => simp
  | cons a l ih =>
    simp only [List.map_cons, List.sum_cons, List.length_cons, ih, Nat.cast_add, Nat.cast_one]
    ring

theorem computeCentroid_map_affine (k : ℝ) (t : Point3D) (l : List Point3D) (hl : l ≠ []) :
    computeCentroid (l.map (affineMap k t)) = affineMap k t (computeCentroid l) := by
  have hn : ((l.length : ℝ)) ≠ 0 := by
    have hpos := List.length_pos.mpr hl
    exact_mod_cast Nat.pos_iff_ne_zero.mp hpos
  rw [computeCentroid_eq, computeCentroid_eq]
  refine Point3D.ext ?_ ?_ ?_ <;>
    simp only [List.length_map, List.map_map, affineMap]
  · have hc : (Point3D.x ∘ affineMap k t) = fun p => k * p.x + t.x := rfl
    rw [hc, sum_map_affine]
    field_simp
    ring
  · have hc : (Point3D.y ∘ affineMap k t) = fun p => k * p.y + t.y := rfl
    rw [hc, sum_map_affine]
    field_simp
    ring
  · have hc : (Point3D.z ∘ affineMap k t) = fun p => k * p.z + t.z := rfl
    rw [hc, sum_map_affine]
    field_simp
    ring

theorem computeCentroid_single (p : Point3D) : computeCentroid [p] = p := by
  rw [computeCentroid_eq]
  simp

/-!
## Specialised covariance and spread facts, and assembly lemmas for the
final `T * S * R` composition.
-/

theorem Mat3.zero_symm : Mat3.zero.Symm := ⟨rfl, rfl, rfl⟩

theorem Mat3.zero_trace : Mat3.zero.trace = 0 := by
  unfold Mat3.zero Mat3.trace
  norm_num

theorem buildH_self (S : List Point3D) (c : Point3D) :
    (buildH S S c c).Symm ∧ 0 ≤ (buildH S S c c).trace := by
  unfold buildH
  refine hfold_symm_trace c c (S.zip S) ?_ Mat3.zero Mat3.zero_symm (le_of_eq Mat3.zero_trace.symm)
  intro st hst
  refine ⟨1, by norm_num, ?_, ?_, ?_⟩ <;> rw [mem_zip_self S st hst] <;> ring

theorem buildH_map_affine (k : ℝ) (hk : 0 ≤ k) (t : Point3D) (src : List Point3D)
    (c : Point3D) :
    (buildH src (src.map (affineMap k t)) c (affineMap k t c)).Symm
      ∧ 0 ≤ (buildH src (src.map (affineMap k t)) c (affineMap k t c)).trace := by
  unfold buildH
  refine hfold_symm_trace _ _ _ ?_ Mat3.zero Mat3.zero_symm (le_of_eq Mat3.zero_trace.symm)
  intro st hst
  have h2 := mem_zip_map (affineMap k t) src st hst
  refine ⟨k, hk, ?_, ?_, ?_⟩ <;> rw [h2] <;> unfold affineMap <;> dsimp only <;> ring

theorem buildH_replicate (src : List Point3D) (n : ℕ) (q c : Point3D) :
    (buildH src (List.replicate n q) c q).Symm
      ∧ 0 ≤ (buildH src (List.replicate n q) c q).trace := by
  unfold buildH
  refine hfold_symm_trace _ _ _ ?_ Mat3.zero Mat3.zero_symm (le_of_eq Mat3.zero_trace.symm)
  intro st hst
  have h2 := mem_zip_replicate q src n st hst
  refine ⟨0, le_refl 0, ?_, ?_, ?_⟩ <;> rw [h2] <;> ring

theorem spreadPair_self_snd (l : List Point3D) (c : Point3D) :
    (spreadPair l l c c).2 = (spreadPair l l c c).1 := by
  rw [spreadPair_eq]
  dsimp only
  refine congrArg List.sum (List.map_congr_left ?_)
  intro st hst
  rw [mem_zip_self l st hst]

theorem spreadPair_map_affine (k : ℝ) (t : Point3D) (src : List Point3D) (c : Point3D) :
    (spreadPair src (src.map (affineMap k t)) c (affineMap k t c)).2
      = k ^ 2 * (spreadPair src (src.map (affineMap k t)) c (affineMap k t c)).1 := by
  rw [spreadPair_eq]
  dsimp only
  have hc : (src.zip (src.map (affineMap k t))).map
        (fun sd => dist2 (affineMap k t c) sd.2)
      = (src.zip (src.map (affineMap k t))).map
        (fun sd => k ^ 2 * dist2 c sd.1) := by
    refine List.map_congr_left ?_
    intro st hst
    rw [mem_zip_map (affineMap k t) src st hst]
    unfold dist2 affineMap
    dsimp only
    ring
  rw [hc]
  exact sum_map_mul (k ^ 2) (fun sd : Point3D × Point3D => dist2 c sd.1) _

theorem spreadPair_replicate_snd (src : List Point3D) (n : ℕ) (q sc : Point3D) :
    (spreadPair src (List.replicate n q) sc q).2 = 0 := by
  rw [spreadPair_eq]
  dsimp only
  have hc : (src.zip (List.replicate n q)).map (fun sd => dist2 q sd.2)
      = (src.zip (List.replicate n q)).map (fun _ => (0 : ℝ)) := by
    refine List.map_congr_left ?_
    intro st hst
    rw [mem_zip_replicate q src n st hst]
    exact dist2_self q
  rw [hc]
  simp

theorem spreadPair_coincident_fst (src dst : List Point3D) (dc p₀ : Point3D)
    (hco : ∀ p ∈ src, p = p₀) :
    (spreadPair src dst p₀ dc).1 = 0 := by
  rw [spreadPair_eq]
  dsimp only
  have hc : (src.zip dst).map (fun sd => dist2 p₀ sd.1)
      = (src.zip dst).map (fun _ => (0 : ℝ)) := by
    refine List.map_congr_left ?_
    intro st hst
    rw [hco st.1 (List.of_mem_zip hst).1]
    exact dist2_self p₀
  rw [hc]
  simp

theorem applyMat4_identity (p : Point3D) : applyMat4 Mat4.identity p = p := by
  unfold applyMat4 Mat4.identity
  refine Point3D.ext ?_ ?_ ?_ <;> dsimp only <;> norm_num

theorem applyMat4_affine_mul (tx ty tz s : ℝ) (r : Mat4) (h41 : r.m41 = 0)
    (h42 : r.m42 = 0) (h43 : r.m43 = 0) (h44 : r.m44 = 1) (p : Point3D) :
    applyMat4 (((Mat4.makeTranslation tx ty tz).mul (Mat4.makeScale s s s)).mul r) p
      = ⟨tx + s * (applyMat4 r p).x, ty + s * (applyMat4 r p).y,
         tz + s * (applyMat4 r p).z⟩ := by
  unfold applyMat4 Mat4.mul Mat4.makeTranslation Mat4.makeScale
  refine Point3D.ext ?_ ?_ ?_ <;> dsimp only <;> rw [h41, h42, h43, h44] <;>
    norm_num <;> ring

theorem TS_mul_identity (tx ty tz s : ℝ) :
    ((Mat4.makeTranslation tx ty tz).mul (Mat4.makeScale s s s)).mul Mat4.identity
      = ⟨s, 0, 0, tx, 0, s, 0, ty, 0, 0, s, tz, 0, 0, 0, 1⟩ := by
  unfold Mat4.mul Mat4.makeTranslation Mat4.makeScale Mat4.identity
  rw [Mat4.mk.injEq]
  norm_num

/-!
## Scale-estimator lemmas.
-/

theorem scaleOf_le_floor (s d : ℝ) (h : s ≤ 1e-10) : scaleOf s d = 1 := by
  unfold scaleOf
  exact if_neg (not_lt.mpr h)

theorem scaleOf_gt_floor (s d : ℝ) (h : 1e-10 < s) : scaleOf s d = Real.sqrt (d / s) := by
  unfold scaleOf
  exact if_pos h

theorem scaleOf_self (s : ℝ) : scaleOf s s = 1 := by
  unfold scaleOf
  split
  · rename_i h
    have hne : s ≠ 0 := by
      intro h0
      rw [h0] at h
      norm_num at h
    rw [div_self hne, Real.sqrt_one]
  · rfl

theorem scaleOf_sq_mul (s k : ℝ) (hs : 1e-10 < s) (hk : 0 ≤ k) :
    scaleOf s (k ^ 2 * s) = k := by
  rw [scaleOf_gt_floor s _ hs]
  have hne : s ≠ 0 := by
    intro h0
    rw [h0] at hs
    norm_num at hs
  rw [mul_div_assoc, div_self hne, mul_one, Real.sqrt_sq hk]

theorem scaleOf_zero_dst (s : ℝ) (hs : 1e-10 < s) : scaleOf s 0 = 0 := by
  rw [scaleOf_gt_floor s 0 hs, zero_div, Real.sqrt_zero]

/-- The rotation matrix returned by `computeOptimalRotation` always has
last row `(0, 0, 0, 1)` and last column `(0, 0, 0, 1)`. -/
theorem computeOptimalRotation_affine (src tgt : List Point3D) (sc tc : Point3D) :
    (computeOptimalRotation src tgt sc tc).m41 = 0
      ∧ (computeOptimalRotation src tgt sc tc).m42 = 0
      ∧ (computeOptimalRotation src tgt sc tc).m43 = 0
      ∧ (computeOptimalRotation src tgt sc tc).m44 = 1
      ∧ (computeOptimalRotation src tgt sc tc).m14 = 0
      ∧ (computeOptimalRotation src tgt sc tc).m24 = 0
      ∧ (computeOptimalRotation src tgt sc tc).m34 = 0 :=
  ⟨rfl, rfl, rfl, rfl, rfl, rfl, rfl⟩

/-- Applying the rotation matrix to a point coincides with the action of
its upper-left 3x3 block (the homogeneous `w` stays 1). -/
theorem applyMat4_optRot (src tgt : List Point3D) (sc tc : Point3D) (p : Point3D) :
    applyMat4 (computeOptimalRotation src tgt sc tc) p
      = Mat3.mulVec (Mat4.upper3 (computeOptimalRotation src tgt sc tc)) p := by
  unfold computeOptimalRotation quatToMat4 applyMat4 Mat4.upper3 Mat3.mulVec
  refine Point3D.ext ?_ ?_ ?_ <;> dsimp only <;> norm_num

/-!
## Claim theorems.
-/

/-- Claim C1: for every pair of 3-D point lists and every pair of
centroids — including degenerate inputs — the matrix returned by
`computeOptimalRotation` has an upper-left 3x3 block `R` with
`R * transpose R = identity` and `det R = 1` (exactly, in the
real-arithmetic embedding, hence within any stated tolerance). -/
theorem claim_C1 (src tgt : List Point3D) (sc tc : Point3D) :
    Mat3.mul (Mat4.upper3 (computeOptimalRotation src tgt sc tc))
        (Mat3.transpose (Mat4.upper3 (computeOptimalRotation src tgt sc tc)))
        = Mat3.identity
      ∧ Mat3.det (Mat4.upper3 (computeOptimalRotation src tgt sc tc)) = 1 := by
  have hseed : (Quat4.normSq ⟨1, 0, 0, 0⟩) = 1 := by
    unfold Quat4.normSq
    norm_num
  have hq1 : (powerLoop (buildN (buildH src tgt sc tc)) 50 ⟨1, 0, 0, 0⟩).normSq = 1 :=
    powerLoop_normSq _ 50 _ hseed
  set q := powerLoop (buildN (buildH src tgt sc tc)) 50 ⟨1, 0, 0, 0⟩ with hqdef
  have hsq : q.w ^ 2 + q.x ^ 2 + q.y ^ 2 + q.z ^ 2 = 1 := by
    unfold Quat4.normSq at hq1
    nlinarith [hq1]
  constructor
  · exact quatToMat4_mul_transpose q.w q.x q.y q.z hsq
  · exact quatToMat4_det q.w q.x q.y q.z hsq

/-- Claim C3: identical inputs yield the identity: `computeOptimalRotation`
on two copies of any point list with any (shared) centroid returns the
identity matrix, and `computeRigidTransformFromPoints` on two copies of a
non-empty point list returns the identity transform. -/
theorem claim_C3 :
    (∀ (S : List Point3D) (c : Point3D), computeOptimalRotation S S c c = Mat4.identity)
      ∧ ∀ P : List Point3D, P ≠ [] →
          computeRigidTransformFromPoints P P = Mat4.identity := by
  have part1 : ∀ (S : List Point3D) (c : Point3D),
      computeOptimalRotation S S c c = Mat4.identity := by
    intro S c
    obtain ⟨hs, ht⟩ := buildH_self S c
    exact rotation_identity_of_symm S S c c hs ht
  refine ⟨part1, ?_⟩
  intro P hP
  simp only [computeRigidTransformFromPoints]
  rw [part1 P (computeCentroid P)]
  rw [applyMat4_identity, spreadPair_self_snd, scaleOf_self, TS_mul_identity]
  rw [Mat4.identity, Mat4.mk.injEq]
  norm_num

/-- Claim C5: a single-point correspondence does not crash and produces a
pure translation: the rotation is the identity (the power-iteration seed is
retained since the very first normalisation underflows), the scale factor
is 1, and the returned matrix is the translation by `q - p`, mapping `p`
exactly to `q`. -/
theorem claim_C5 (p q : Point3D) :
    computeOptimalRotation [p] [q] (computeCentroid [p]) (computeCentroid [q])
        = Mat4.identity
      ∧ scaleOf (spreadPair [p] [q] (computeCentroid [p]) (computeCentroid [q])).1
          (spreadPair [p] [q] (computeCentroid [p]) (computeCentroid [q])).2 = 1
      ∧ computeRigidTransformFromPoints [p] [q]
          = Mat4.makeTranslation (q.x - p.x) (q.y - p.y) (q.z - p.z)
      ∧ applyMat4 (computeRigidTransformFromPoints [p] [q]) p = q := by
  have hcp : computeCentroid [p] = p := computeCentroid_single p
  have hcq : computeCentroid [q] = q := computeCentroid_single q
  have hrot : computeOptimalRotation [p] [q] p q = Mat4.identity := by
    have hfold := hfold_symm_trace p q ([p].zip [q]) ?_ Mat3.zero Mat3.zero_symm
      (le_of_eq Mat3.zero_trace.symm)
    · exact rotation_identity_of_symm [p] [q] p q hfold.1 hfold.2
    · intro st hst
      have hm : st = (p, q) := by
        simpa using hst
      refine ⟨0, le_refl 0, ?_, ?_, ?_⟩ <;> rw [hm] <;> dsimp only <;> ring
  have hsp : spreadPair [p] [q] p q = (0, 0) := by
    rw [spreadPair_eq]
    simp [dist2_self]
  have hscale : scaleOf (spreadPair [p] [q] p q).1 (spreadPair [p] [q] p q).2 = 1 := by
    rw [hsp]
    exact scaleOf_le_floor 0 0 (by norm_num)
  have htrans : computeRigidTransformFromPoints [p] [q]
      = Mat4.makeTranslation (q.x - p.x) (q.y - p.y) (q.z - p.z) := by
    simp only [computeRigidTransformFromPoints]
    rw [hcp, hcq, hrot, applyMat4_identity, hscale, TS_mul_identity]
    rw [Mat4.makeTranslation, Mat4.mk.injEq]
    norm_num
  refine ⟨by rw [hcp, hcq]; exact hrot, by rw [hcp, hcq]; exact hscale, htrans, ?_⟩
  rw [htrans]
  unfold applyMat4 Mat4.makeTranslation
  refine Point3D.ext ?_ ?_ ?_ <;> dsimp only <;> norm_num

/-- Claim C3 witness at a concrete input. -/
theorem claim_C3_witness :
    computeOptimalRotation [(⟨5, 0, 0⟩ : Point3D)] [(⟨5, 0, 0⟩ : Point3D)] ⟨1, 2, 3⟩ ⟨1, 2, 3⟩
        = Mat4.identity
      ∧ computeRigidTransformFromPoints [(⟨1, 2, 3⟩ : Point3D)] [(⟨1, 2, 3⟩ : Point3D)]
        = Mat4.identity :=
  ⟨claim_C3.1 [⟨5, 0, 0⟩] ⟨1, 2, 3⟩,
   claim_C3.2 [⟨1, 2, 3⟩] (List.cons_ne_nil _ _)⟩

/-- Claim C2 (amended): if the source spread exceeds the 1e-10 floor, a
destination list that is an exact uniform scaling by `k > 0` plus
translation of the source is reproduced exactly by the computed
transform. -/
theorem claim_C2 (src : List Point3D) (k : ℝ) (t : Point3D) (hne : src ≠ [])
    (hk : 0 < k)
    (hsp : 1e-10 < (spreadPair src (src.map (affineMap k t)) (computeCentroid src)
        (computeCentroid (src.map (affineMap k t)))).1) :
    ∀ p ∈ src,
      applyMat4 (computeRigidTransformFromPoints src (src.map (affineMap k t))) p
        = affineMap k t p := by
  intro p _
  have hcd := computeCentroid_map_affine k t src hne
  rw [hcd] at hsp
  have hrot : computeOptimalRotation src (src.map (affineMap k t)) (computeCentroid src)
      (affineMap k t (computeCentroid src)) = Mat4.identity := by
    obtain ⟨hs, ht⟩ := buildH_map_affine k hk.le t src (computeCentroid src)
    exact rotation_identity_of_symm _ _ _ _ hs ht
  simp only [computeRigidTransformFromPoints]
  rw [hcd, hrot, applyMat4_identity, spreadPair_map_affine k t src (computeCentroid src),
    scaleOf_sq_mul _ k hsp hk.le,
    applyMat4_affine_mul _ _ _ _ Mat4.identity rfl rfl rfl rfl p, applyMat4_identity]
  unfold affineMap
  refine Point3D.ext ?_ ?_ ?_ <;> dsimp only <;> ring

/-- Claim C2 witness at a concrete input: two source points of spread 2,
scaled by 2 and translated by `(1,0,0)`. -/
theorem claim_C2_witness :
    applyMat4 (computeRigidTransformFromPoints [(⟨0, 0, 0⟩ : Point3D), ⟨2, 0, 0⟩]
        ([(⟨0, 0, 0⟩ : Point3D), ⟨2, 0, 0⟩].map (affineMap 2 ⟨1, 0, 0⟩))) ⟨0, 0, 0⟩
      = affineMap 2 ⟨1, 0, 0⟩ ⟨0, 0, 0⟩ := by
  refine claim_C2 [⟨0, 0, 0⟩, ⟨2, 0, 0⟩] 2 ⟨1, 0, 0⟩ (List.cons_ne_nil _ _) (by norm_num)
    ?_ ⟨0, 0, 0⟩ (List.mem_cons_self _ _)
  rw [spreadPair_eq]
  simp only [computeCentroid_eq, List.map_cons, List.map_nil, List.sum_cons, List.sum_nil,
    List.length_cons, List.length_nil, affineMap, List.zip_cons_cons, List.zip_nil_right,
    dist2]
  norm_num

/-- Claim C2 counterexample: the destination list is exactly the source
scaled by `k = 1e6` (no translation), the source is non-empty and `k > 0`,
yet because the source spread (`5e-13`) sits below the `1e-10` floor the
computed scale falls back to 1 and the transform sends the first source
point to `(999999/2000000, 0, 0)` instead of its destination `(0,0,0)` —
an error of almost `1/2`, far outside any tight tolerance. -/
theorem claim_C2_counterexample :
    [(⟨0, 0, 0⟩ : Point3D), ⟨1, 0, 0⟩]
        = [(⟨0, 0, 0⟩ : Point3D), ⟨1e-6, 0, 0⟩].map (affineMap 1e6 ⟨0, 0, 0⟩)
      ∧ (applyMat4 (computeRigidTransformFromPoints
            [(⟨0, 0, 0⟩ : Point3D), ⟨1e-6, 0, 0⟩]
            [(⟨0, 0, 0⟩ : Point3D), ⟨1, 0, 0⟩]) ⟨0, 0, 0⟩).x
          = 999999 / 2000000
      ∧ ((999999 : ℝ) / 2000000) > 1 / 100 := by
  have hcs : computeCentroid [(⟨0, 0, 0⟩ : Point3D), ⟨1e-6, 0, 0⟩]
      = ⟨1 / 2000000, 0, 0⟩ := by
    rw [computeCentroid_eq]
    simp only [List.map_cons, List.map_nil, List.sum_cons, List.sum_nil, List.length_cons,
      List.length_nil]
    rw [Point3D.mk.injEq]
    norm_num
  have hcd : computeCentroid [(⟨0, 0, 0⟩ : Point3D), ⟨1, 0, 0⟩] = ⟨1 / 2, 0, 0⟩ := by
    rw [computeCentroid_eq]
    simp only [List.map_cons, List.map_nil, List.sum_cons, List.sum_nil, List.length_cons,
      List.length_nil]
    rw [Point3D.mk.injEq]
    norm_num
  have hH : buildH [(⟨0, 0, 0⟩ : Point3D), ⟨1e-6, 0, 0⟩]
      [(⟨0, 0, 0⟩ : Point3D), ⟨1, 0, 0⟩] ⟨1 / 2000000, 0, 0⟩ ⟨1 / 2, 0, 0⟩
      = ⟨1 / 2000000, 0, 0, 0, 0, 0, 0, 0, 0⟩ := by
    unfold buildH hStep Mat3.zero
    simp only [List.zip_cons_cons, List.zip_nil_right, List.foldl_cons, List.foldl_nil]
    rw [Mat3.mk.injEq]
    norm_num
  have hrot : computeOptimalRotation [(⟨0, 0, 0⟩ : Point3D), ⟨1e-6, 0, 0⟩]
      [(⟨0, 0, 0⟩ : Point3D), ⟨1, 0, 0⟩] ⟨1 / 2000000, 0, 0⟩ ⟨1 / 2, 0, 0⟩
      = Mat4.identity := by
    refine rotation_identity_of_symm _ _ _ _ ?_ ?_ <;> rw [hH]
    · exact ⟨rfl, rfl, rfl⟩
    · unfold Mat3.trace
      norm_num
  have hspc : spreadPair [(⟨0, 0, 0⟩ : Point3D), ⟨1e-6, 0, 0⟩]
      [(⟨0, 0, 0⟩ : Point3D), ⟨1, 0, 0⟩] ⟨1 / 2000000, 0, 0⟩ ⟨1 / 2, 0, 0⟩
      = (1 / 2000000000000, 1 / 2) := by
    unfold spreadPair spreadStep
    simp only [List.zip_cons_cons, List.zip_nil_right, List.foldl_cons, List.foldl_nil]
    rw [Prod.mk.injEq]
    norm_num
  have hscale : scaleOf (1 / 2000000000000 : ℝ) (1 / 2) = 1 :=
    scaleOf_le_floor _ _ (by norm_num)
  refine ⟨?_, ?_, by norm_num⟩
  · simp only [List.map_cons, List.map_nil, affineMap]
    rw [List.cons.injEq, List.cons.injEq, Point3D.mk.injEq, Point3D.mk.injEq]
    norm_num
  · simp only [computeRigidTransformFromPoints]
    rw [hcs, hcd, hrot, applyMat4_identity, hspc, hscale,
      applyMat4_affine_mul _ _ _ _ Mat4.identity rfl rfl rfl rfl _, applyMat4_identity]
    dsimp only
    norm_num

/-- Claim C6: the scale factor computed inside
`computeRigidTransformFromPoints` is exactly 1 whenever the accumulated
source spread is at or below the 1e-10 floor (the guarded branch never
divides), equals `sqrt(dstSpread / srcSpread)` whenever the spread exceeds
the floor, and coincident source points force a zero spread, hence scale 1. -/
theorem claim_C6 (src dst : List Point3D) :
    ((spreadPair src dst (computeCentroid src) (computeCentroid dst)).1 ≤ 1e-10 →
        scaleOf (spreadPair src dst (computeCentroid src) (computeCentroid dst)).1
          (spreadPair src dst (computeCentroid src) (computeCentroid dst)).2 = 1)
      ∧ (1e-10 < (spreadPair src dst (computeCentroid src) (computeCentroid dst)).1 →
        scaleOf (spreadPair src dst (computeCentroid src) (computeCentroid dst)).1
            (spreadPair src dst (computeCentroid src) (computeCentroid dst)).2
          = Real.sqrt ((spreadPair src dst (computeCentroid src) (computeCentroid dst)).2
            / (spreadPair src dst (computeCentroid src) (computeCentroid dst)).1))
      ∧ ∀ p₀ : Point3D, (∀ p ∈ src, p = p₀) →
          (spreadPair src dst (computeCentroid src) (computeCentroid dst)).1 = 0
            ∧ scaleOf (spreadPair src dst (computeCentroid src) (computeCentroid dst)).1
                (spreadPair src dst (computeCentroid src) (computeCentroid dst)).2 = 1 := by
  refine ⟨fun h => scaleOf_le_floor _ _ h, fun h => scaleOf_gt_floor _ _ h, ?_⟩
  intro p₀ hco
  rcases eq_or_ne src [] with hsrc | hsrc
  · subst hsrc
    have h0 : (spreadPair [] dst (computeCentroid []) (computeCentroid dst)).1 = 0 := by
      unfold spreadPair
      simp
    exact ⟨h0, by rw [h0]; exact scaleOf_le_floor _ _ (by norm_num)⟩
  · have hc : computeCentroid src = p₀ := by
      have hrep := List.eq_replicate_of_mem hco
      have hn : src.length ≠ 0 := by
        intro h0
        exact hsrc (List.length_eq_zero.mp h0)
      conv_lhs => rw [hrep]
      exact computeCentroid_replicate src.length hn p₀
    have h0 : (spreadPair src dst (computeCentroid src) (computeCentroid dst)).1 = 0 := by
      rw [hc]
      exact spreadPair_coincident_fst src dst (computeCentroid dst) p₀ hco
    exact ⟨h0, by rw [h0]; exact scaleOf_le_floor _ _ (by norm_num)⟩

/-- Claim C6 witness at a concrete input: two coincident source points. -/
theorem claim_C6_witness :
    (spreadPair [(⟨1, 2, 3⟩ : Point3D), ⟨1, 2, 3⟩] [(⟨0, 0, 0⟩ : Point3D), ⟨4, 0, 0⟩]
        (computeCentroid [(⟨1, 2, 3⟩ : Point3D), ⟨1, 2, 3⟩])
        (computeCentroid [(⟨0, 0, 0⟩ : Point3D), ⟨4, 0, 0⟩])).1 = 0
      ∧ scaleOf (spreadPair [(⟨1, 2, 3⟩ : Point3D), ⟨1, 2, 3⟩]
            [(⟨0, 0, 0⟩ : Point3D), ⟨4, 0, 0⟩]
            (computeCentroid [(⟨1, 2, 3⟩ : Point3D), ⟨1, 2, 3⟩])
            (computeCentroid [(⟨0, 0, 0⟩ : Point3D), ⟨4, 0, 0⟩])).1
          (spreadPair [(⟨1, 2, 3⟩ : Point3D), ⟨1, 2, 3⟩]
            [(⟨0, 0, 0⟩ : Point3D), ⟨4, 0, 0⟩]
            (computeCentroid [(⟨1, 2, 3⟩ : Point3D), ⟨1, 2, 3⟩])
            (computeCentroid [(⟨0, 0, 0⟩ : Point3D), ⟨4, 0, 0⟩])).2 = 1 := by
  refine (claim_C6 [⟨1, 2, 3⟩, ⟨1, 2, 3⟩] [⟨0, 0, 0⟩, ⟨4, 0, 0⟩]).2.2 ⟨1, 2, 3⟩ ?_
  intro p hp
  rcases List.mem_cons.mp hp with h | h
  · exact h
  · simpa using h

/-- Claim C9 (amended): `computeCentroid` does not reject the empty list
with an explicit error: it is total and unconditionally returns the point
of component sums divided by the length, which on the empty list is the
division `0 / 0` (`NaN` in JavaScript, 0 in the real-number embedding). -/
theorem claim_C9 :
    computeCentroid [] = ⟨(0 : ℝ) / (0 : ℝ), (0 : ℝ) / (0 : ℝ), (0 : ℝ) / (0 : ℝ)⟩
      ∧ ∀ ps : List Point3D,
          computeCentroid ps
            = ⟨(ps.map Point3D.x).sum / (ps.length : ℝ),
               (ps.map Point3D.y).sum / (ps.length : ℝ),
               (ps.map Point3D.z).sum / (ps.length : ℝ)⟩ := by
  constructor
  · rw [computeCentroid_eq]
    simp
  · exact computeCentroid_eq

/-- Claim C9 counterexample: on the concrete empty input, `computeCentroid`
returns a point value (the division of the zero sums by zero, i.e. `NaN`
components in JavaScript, the junk value 0 in the real-arithmetic
embedding) — it does not reject the input with an explicit error: the
function has no error path at all. -/
theorem claim_C9_counterexample : computeCentroid [] = ⟨0, 0, 0⟩ := by
  rw [computeCentroid_eq]
  simp

/-- Claim C10 (amended): if all destination points coincide at `q` while
the source spread exceeds the 1e-10 floor, the computed scale is exactly 0,
the returned matrix is non-invertible (its upper-left block has determinant
0) and it maps every point to `q`; no error is raised. -/
theorem claim_C10 (src : List Point3D) (q : Point3D) (hne : src ≠ [])
    (hsp : 1e-10 < (spreadPair src (List.replicate src.length q) (computeCentroid src)
        (computeCentroid (List.replicate src.length q))).1) :
    scaleOf (spreadPair src (List.replicate src.length q) (computeCentroid src)
          (computeCentroid (List.replicate src.length q))).1
        (spreadPair src (List.replicate src.length q) (computeCentroid src)
          (computeCentroid (List.replicate src.length q))).2 = 0
      ∧ Mat3.det (Mat4.upper3
          (computeRigidTransformFromPoints src (List.replicate src.length q))) = 0
      ∧ ∀ p : Point3D,
          applyMat4 (computeRigidTransformFromPoints src (List.replicate src.length q)) p
            = q := by
  have hn : src.length ≠ 0 := by
    intro h0
    exact hne (List.length_eq_zero.mp h0)
  have hcd : computeCentroid (List.replicate src.length q) = q :=
    computeCentroid_replicate src.length hn q
  rw [hcd] at hsp
  have hsnd := spreadPair_replicate_snd src src.length q (computeCentroid src)
  have hscale : scaleOf (spreadPair src (List.replicate src.length q) (computeCentroid src) q).1
      (spreadPair src (List.replicate src.length q) (computeCentroid src) q).2 = 0 := by
    rw [hsnd]
    exact scaleOf_zero_dst _ hsp
  have hrot : computeOptimalRotation src (List.replicate src.length q)
      (computeCentroid src) q = Mat4.identity := by
    obtain ⟨hs, ht⟩ := buildH_replicate src src.length q (computeCentroid src)
    exact rotation_identity_of_symm _ _ _ _ hs ht
  refine ⟨by rw [hcd]; exact hscale, ?_, ?_⟩
  · simp only [computeRigidTransformFromPoints]
    rw [hcd, hrot, applyMat4_identity, hscale, TS_mul_identity]
    unfold Mat4.upper3 Mat3.det
    norm_num
  · intro p
    simp only [computeRigidTransformFromPoints]
    rw [hcd, hrot, applyMat4_identity, hscale,
      applyMat4_affine_mul _ _ _ _ Mat4.identity rfl rfl rfl rfl p, applyMat4_identity]
    refine Point3D.ext ?_ ?_ ?_ <;> dsimp only <;> ring

/-- Claim C10 witness at a concrete input: source of spread 1/2, all
destinations at `(5,6,7)`. -/
theorem claim_C10_witness :
    scaleOf (spreadPair [(⟨0, 0, 0⟩ : Point3D), ⟨1, 0, 0⟩]
          (List.replicate (List.length [(⟨0, 0, 0⟩ : Point3D), ⟨1, 0, 0⟩]) ⟨5, 6, 7⟩)
          (computeCentroid [(⟨0, 0, 0⟩ : Point3D), ⟨1, 0, 0⟩])
          (computeCentroid (List.replicate
            (List.length [(⟨0, 0, 0⟩ : Point3D), ⟨1, 0, 0⟩]) ⟨5, 6, 7⟩))).1
        (spreadPair [(⟨0, 0, 0⟩ : Point3D), ⟨1, 0, 0⟩]
          (List.replicate (List.length [(⟨0, 0, 0⟩ : Point3D), ⟨1, 0, 0⟩]) ⟨5, 6, 7⟩)
          (computeCentroid [(⟨0, 0, 0⟩ : Point3D), ⟨1, 0, 0⟩])
          (computeCentroid (List.replicate
            (List.length [(⟨0, 0, 0⟩ : Point3D), ⟨1, 0, 0⟩]) ⟨5, 6, 7⟩))).2 = 0
      ∧ applyMat4 (computeRigidTransformFromPoints [(⟨0, 0, 0⟩ : Point3D), ⟨1, 0, 0⟩]
          (List.replicate (List.length [(⟨0, 0, 0⟩ : Point3D), ⟨1, 0, 0⟩]) ⟨5, 6, 7⟩))
          ⟨9, 9, 9⟩ = ⟨5, 6, 7⟩ := by
  have h := claim_C10 [⟨0, 0, 0⟩, ⟨1, 0, 0⟩] ⟨5, 6, 7⟩ (List.cons_ne_nil _ _) ?_
  · exact ⟨h.1, h.2.2 ⟨9, 9, 9⟩⟩
  · rw [spreadPair_eq]
    simp only [computeCentroid_eq, List.map_cons, List.map_nil, List.sum_cons, List.sum_nil,
      List.length_cons, List.length_nil, List.length_replicate, List.replicate,
      List.zip_cons_cons, List.zip_nil_right, dist2]
    norm_num

/-- Claim C10 counterexample: both destination points coincide at
`(1,2,3)` and the source spread `5e-13` is strictly positive, yet the
computed scale is 1 (not 0) and the returned matrix has determinant 1
(it is invertible and is a pure translation, not a collapse onto the
common destination point): the zero-scale behaviour only occurs once the
source spread exceeds the 1e-10 floor. -/
theorem claim_C10_counterexample :
    (0 : ℝ) < (spreadPair [(⟨0, 0, 0⟩ : Point3D), ⟨1e-6, 0, 0⟩]
        [(⟨1, 2, 3⟩ : Point3D), ⟨1, 2, 3⟩]
        (computeCentroid [(⟨0, 0, 0⟩ : Point3D), ⟨1e-6, 0, 0⟩])
        (computeCentroid [(⟨1, 2, 3⟩ : Point3D), ⟨1, 2, 3⟩])).1
      ∧ scaleOf (spreadPair [(⟨0, 0, 0⟩ : Point3D), ⟨1e-6, 0, 0⟩]
            [(⟨1, 2, 3⟩ : Point3D), ⟨1, 2, 3⟩]
            (computeCentroid [(⟨0, 0, 0⟩ : Point3D), ⟨1e-6, 0, 0⟩])
            (computeCentroid [(⟨1, 2, 3⟩ : Point3D), ⟨1, 2, 3⟩])).1
          (spreadPair [(⟨0, 0, 0⟩ : Point3D), ⟨1e-6, 0, 0⟩]
            [(⟨1, 2, 3⟩ : Point3D), ⟨1, 2, 3⟩]
            (computeCentroid [(⟨0, 0, 0⟩ : Point3D), ⟨1e-6, 0, 0⟩])
            (computeCentroid [(⟨1, 2, 3⟩ : Point3D), ⟨1, 2, 3⟩])).2 = 1
      ∧ Mat3.det (Mat4.upper3 (computeRigidTransformFromPoints
          [(⟨0, 0, 0⟩ : Point3D), ⟨1e-6, 0, 0⟩]
          [(⟨1, 2, 3⟩ : Point3D), ⟨1, 2, 3⟩])) = 1 := by
  have hcs : computeCentroid [(⟨0, 0, 0⟩ : Point3D), ⟨1e-6, 0, 0⟩]
      = ⟨1 / 2000000, 0, 0⟩ := by
    rw [computeCentroid_eq]
    simp only [List.map_cons, List.map_nil, List.sum_cons, List.sum_nil, List.length_cons,
      List.length_nil]
    rw [Point3D.mk.injEq]
    norm_num
  have hcd : computeCentroid [(⟨1, 2, 3⟩ : Point3D), ⟨1, 2, 3⟩] = ⟨1, 2, 3⟩ := by
    rw [computeCentroid_eq]
    simp only [List.map_cons, List.map_nil, List.sum_cons, List.sum_nil, List.length_cons,
      List.length_nil]
    rw [Point3D.mk.injEq]
    norm_num
  have hspc : spreadPair [(⟨0, 0, 0⟩ : Point3D), ⟨1e-6, 0, 0⟩]
      [(⟨1, 2, 3⟩ : Point3D), ⟨1, 2, 3⟩] ⟨1 / 2000000, 0, 0⟩ ⟨1, 2, 3⟩
      = (1 / 2000000000000, 0) := by
    unfold spreadPair spreadStep
    simp only [List.zip_cons_cons, List.zip_nil_right, List.foldl_cons, List.foldl_nil]
    rw [Prod.mk.injEq]
    norm_num
  have hH : buildH [(⟨0, 0, 0⟩ : Point3D), ⟨1e-6, 0, 0⟩]
      [(⟨1, 2, 3⟩ : Point3D), ⟨1, 2, 3⟩] ⟨1 / 2000000, 0, 0⟩ ⟨1, 2, 3⟩
      = ⟨0, 0, 0, 0, 0, 0, 0, 0, 0⟩ := by
    unfold buildH hStep Mat3.zero
    simp only [List.zip_cons_cons, List.zip_nil_right, List.foldl_cons, List.foldl_nil]
    rw [Mat3.mk.injEq]
    norm_num
  have hrot : computeOptimalRotation [(⟨0, 0, 0⟩ : Point3D), ⟨1e-6, 0, 0⟩]
      [(⟨1, 2, 3⟩ : Point3D), ⟨1, 2, 3⟩] ⟨1 / 2000000, 0, 0⟩ ⟨1, 2, 3⟩
      = Mat4.identity := by
    refine rotation_identity_of_symm _ _ _ _ ?_ ?_ <;> rw [hH]
    · exact ⟨rfl, rfl, rfl⟩
    · unfold Mat3.trace
      norm_num
  have hscale : scaleOf (1 / 2000000000000 : ℝ) 0 = 1 :=
    scaleOf_le_floor _ _ (by norm_num)
  refine ⟨?_, ?_, ?_⟩
  · rw [hcs, hcd, hspc]
    norm_num
  · rw [hcs, hcd, hspc]
    exact hscale
  · simp only [computeRigidTransformFromPoints]
    rw [hcs, hcd, hrot, applyMat4_identity, hspc, hscale, TS_mul_identity]
    unfold Mat4.upper3 Mat3.det
    norm_num

/-!
## Claim C4: spec-side composition, written from the spec's own formulas,
and the refinement theorem equating it with the code's result.
-/

theorem mat4_mul_assoc (a b c : Mat4) : (a.mul b).mul c = a.mul (b.mul c) := by
  unfold Mat4.mul
  rw [Mat4.mk.injEq]
  exact ⟨by ring, by ring, by ring, by ring, by ring, by ring, by ring, by ring,
    by ring, by ring, by ring, by ring, by ring, by ring, by ring, by ring⟩

/-- Claim C4: the matrix returned by `computeRigidTransformFromPoints` is
exactly the spec's product `T * S * R` (with `S` the estimated uniform
scale and `T` the translation `destCentroid - scale * R * srcCentroid`),
and applying it to a column vector rotates first, then scales, then
translates. -/
theorem claim_C4 (src dst : List Point3D) :
    computeRigidTransformFromPoints src dst = specCompose src dst
      ∧ ∀ p : Point3D,
          applyMat4 (computeRigidTransformFromPoints src dst) p
            = ⟨(specTranslation src dst).x + specScale src dst
                  * (Mat3.mulVec (Mat4.upper3 (computeOptimalRotation src dst
                      (computeCentroid src) (computeCentroid dst))) p).x,
               (specTranslation src dst).y + specScale src dst
                  * (Mat3.mulVec (Mat4.upper3 (computeOptimalRotation src dst
                      (computeCentroid src) (computeCentroid dst))) p).y,
               (specTranslation src dst).z + specScale src dst
                  * (Mat3.mulVec (Mat4.upper3 (computeOptimalRotation src dst
                      (computeCentroid src) (computeCentroid dst))) p).z⟩ := by
  have hscale : scaleOf (spreadPair src dst (computeCentroid src) (computeCentroid dst)).1
      (spreadPair src dst (computeCentroid src) (computeCentroid dst)).2
      = specScale src dst := rfl
  have haff := computeOptimalRotation_affine src dst (computeCentroid src)
    (computeCentroid dst)
  constructor
  · simp only [computeRigidTransformFromPoints]
    rw [hscale, applyMat4_optRot, mat4_mul_assoc]
    rfl
  · intro p
    simp only [computeRigidTransformFromPoints]
    rw [hscale, applyMat4_optRot,
      applyMat4_affine_mul _ _ _ _ _ haff.1 haff.2.1 haff.2.2.1 haff.2.2.2.1 p,
      applyMat4_optRot]
    rfl

/-!
## Claim C8: an index-checked model of the two loops.  Array reads
`targetPoints[i]` / `dstObjs[i]` are modelled as fallible lookups that fail
exactly when the access would fall out of bounds, and the division inside
`computeCentroid` is modelled as failing on the empty list (JavaScript
produces `NaN` there, not an exception).  Under the basic type contract the
checked pipeline never fails and agrees with the total embedding.
-/

theorem buildHCheckedAux_eq (sc tc : Point3D) :
    ∀ (src tgt : List Point3D), src.length = tgt.length →
      ∀ acc : Mat3, buildHCheckedAux sc tc src tgt acc
        = some ((src.zip tgt).foldl (hStep sc tc) acc) := by
  intro src
  induction src with
  | nil => intro tgt _ acc; simp [buildHCheckedAux]
  | cons s ss ih =>
    intro tgt hlen acc
    cases tgt with
    | nil => simp at hlen
    | cons t ts =>
      simp only [List.length_cons, Nat.succ.injEq] at hlen
      simp only [buildHCheckedAux, List.zip_cons_cons, List.foldl_cons]
      exact ih ts hlen _

theorem spreadCheckedAux_eq (sc dc : Point3D) :
    ∀ (src dst : List Point3D), src.length = dst.length →
      ∀ acc : ℝ × ℝ, spreadCheckedAux sc dc src dst acc
        = some ((src.zip dst).foldl (spreadStep sc dc) acc) := by
  intro src
  induction src with
  | nil => intro dst _ acc; simp [spreadCheckedAux]
  | cons s ss ih =>
    intro dst hlen acc
    cases dst with
    | nil => simp at hlen
    | cons d ds =>
      simp only [List.length_cons, Nat.succ.injEq] at hlen
      simp only [spreadCheckedAux, List.zip_cons_cons, List.foldl_cons]
      exact ih ds hlen _

/-- Claim C8: under the basic type contract (equal lengths; non-empty
input for `computeRigidTransformFromPoints`), every array access of the
two functions is in bounds and no error can arise: the index-checked
pipeline succeeds and returns exactly the result of the total embedding
(whose degenerate cases are handled by the threshold-guarded fallbacks
inside `powerLoop` and `scaleOf`, not by exceptions). -/
theorem claim_C8 :
    (∀ (src tgt : List Point3D) (sc tc : Point3D), src.length = tgt.length →
        computeOptimalRotationChecked src tgt sc tc
          = some (computeOptimalRotation src tgt sc tc))
      ∧ ∀ src dst : List Point3D, src.length = dst.length → src ≠ [] →
          computeRigidTransformFromPointsChecked src dst
            = some (computeRigidTransformFromPoints src dst) := by
  have part1 : ∀ (src tgt : List Point3D) (sc tc : Point3D), src.length = tgt.length →
      computeOptimalRotationChecked src tgt sc tc
        = some (computeOptimalRotation src tgt sc tc) := by
    intro src tgt sc tc hlen
    unfold computeOptimalRotationChecked buildHChecked
    rw [buildHCheckedAux_eq sc tc src tgt hlen Mat3.zero]
    rfl
  refine ⟨part1, ?_⟩
  intro src dst hlen hne
  have hdne : dst ≠ [] := by
    intro h0
    rw [h0] at hlen
    simp only [List.length_nil] at hlen
    exact hne (List.length_eq_zero.mp hlen)
  unfold computeRigidTransformFromPointsChecked
  rw [show computeCentroidChecked src = some (computeCentroid src) by
      unfold computeCentroidChecked
      rw [if_neg (by simpa [List.isEmpty_iff] using hne)],
    show computeCentroidChecked dst = some (computeCentroid dst) by
      unfold computeCentroidChecked
      rw [if_neg (by simpa [List.isEmpty_iff] using hdne)]]
  simp only [Option.bind_eq_bind, Option.some_bind]
  rw [part1 src dst (computeCentroid src) (computeCentroid dst) hlen]
  simp only [Option.some_bind]
  rw [spreadCheckedAux_eq (computeCentroid src) (computeCentroid dst) src dst hlen (0, 0)]
  simp only [Option.some_bind]
  rfl

/-- Claim C8 witness at a concrete input. -/
theorem claim_C8_witness :
    computeOptimalRotationChecked [(⟨1, 0, 0⟩ : Point3D)] [(⟨0, 1, 0⟩ : Point3D)]
        ⟨0, 0, 0⟩ ⟨0, 0, 0⟩
      = some (computeOptimalRotation [(⟨1, 0, 0⟩ : Point3D)] [(⟨0, 1, 0⟩ : Point3D)]
        ⟨0, 0, 0⟩ ⟨0, 0, 0⟩)
      ∧ computeRigidTransformFromPointsChecked [(⟨1, 0, 0⟩ : Point3D)]
          [(⟨0, 1, 0⟩ : Point3D)]
        = some (computeRigidTransformFromPoints [(⟨1, 0, 0⟩ : Point3D)]
          [(⟨0, 1, 0⟩ : Point3D)]) :=
  ⟨claim_C8.1 _ _ _ _ rfl, claim_C8.2 _ _ rfl (List.cons_ne_nil _ _)⟩

/-!
## Claim C7: the concrete 90-degree-about-Z scenario.  With zero centroids
(as in the repository's test) the key matrix has the closed form `c7N`
below, and the normalised power iterate after `k` steps is
`((3^k + (-1)^k)/2, 0, 0, (3^k - (-1)^k)/2)` renormalised.
-/

theorem powerLoop_step (n : Mat4) (k : ℕ) (q : Quat4)
    (h : ¬ Real.sqrt (n.mulQuat q).normSq < 1e-10) :
    powerLoop n (k + 1) q
      = powerLoop n k
        ⟨(n.mulQuat q).w / Real.sqrt (n.mulQuat q).normSq,
         (n.mulQuat q).x / Real.sqrt (n.mulQuat q).normSq,
         (n.mulQuat q).y / Real.sqrt (n.mulQuat q).normSq,
         (n.mulQuat q).z / Real.sqrt (n.mulQuat q).normSq⟩ := by
  rw [powerLoop]
  rw [if_neg h]

theorem c7w_succ (k : ℕ) : c7w (k + 1) = c7w k + 2 * c7z k := by
  unfold c7w c7z
  rw [pow_succ, pow_succ]
  ring

theorem c7z_succ (k : ℕ) : c7z (k + 1) = 2 * c7w k + c7z k := by
  unfold c7w c7z
  rw [pow_succ, pow_succ]
  ring

theorem c7_normSq (k : ℕ) : c7w k ^ 2 + c7z k ^ 2 = ((9 : ℝ) ^ k + 1) / 2 := by
  have he : ((-1 : ℝ) ^ k) ^ 2 = 1 := by
    rw [← pow_mul, mul_comm, pow_mul]
    norm_num
  have h9 : (((3 : ℝ) ^ k) ^ 2) = (9 : ℝ) ^ k := by
    rw [← pow_mul, mul_comm, pow_mul]
    norm_num
  unfold c7w c7z
  linear_combination (1 / 2) * he + (1 / 2) * h9

theorem c7_normSq_pos (k : ℕ) : 0 < c7w k ^ 2 + c7z k ^ 2 := by
  rw [c7_normSq]
  positivity

theorem c7n_pos (k : ℕ) : 0 < c7n k := Real.sqrt_pos.mpr (c7_normSq_pos k)

theorem c7n_mul_self (k : ℕ) : c7n k * c7n k = c7w k ^ 2 + c7z k ^ 2 :=
  Real.mul_self_sqrt (le_of_lt (c7_normSq_pos k))

theorem c7n_mono (k : ℕ) : c7n k ≤ c7n (k + 1) := by
  unfold c7n
  apply Real.sqrt_le_sqrt
  rw [c7_normSq, c7_normSq]
  have h9 : (9 : ℝ) ^ k ≤ 9 ^ (k + 1) := pow_le_pow_right (by norm_num) (Nat.le_succ k)
  linarith

theorem c7_mulQuat (j : ℕ) :
    c7N.mulQuat ⟨c7w j / c7n j, 0, 0, c7z j / c7n j⟩
      = ⟨c7w (j + 1) / c7n j, 0, 0, c7z (j + 1) / c7n j⟩ := by
  unfold c7N Mat4.mulQuat
  rw [Quat4.mk.injEq]
  refine ⟨?_, by norm_num, by norm_num, ?_⟩
  · rw [c7w_succ]
    dsimp only
    ring
  · rw [c7z_succ]
    dsimp only
    ring

theorem c7_len (j : ℕ) :
    Real.sqrt (Quat4.normSq ⟨c7w (j + 1) / c7n j, 0, 0, c7z (j + 1) / c7n j⟩)
      = c7n (j + 1) / c7n j := by
  have hne := ne_of_gt (c7n_pos j)
  have h1 : Quat4.normSq ⟨c7w (j + 1) / c7n j, 0, 0, c7z (j + 1) / c7n j⟩
      = (c7w (j + 1) ^ 2 + c7z (j + 1) ^ 2) / (c7n j * c7n j) := by
    unfold Quat4.normSq
    dsimp only
    field_simp
    ring
  rw [h1, c7n_mul_self, Real.sqrt_div (le_of_lt (c7_normSq_pos (j + 1)))]
  rfl

theorem c7_len_ge (j : ℕ) : ¬ (c7n (j + 1) / c7n j < 1e-10) := by
  have h1 : (1 : ℝ) ≤ c7n (j + 1) / c7n j := by
    rw [le_div_iff (c7n_pos j)]
    simpa using c7n_mono j
  intro hcon
  linarith

theorem c7_powerLoop : ∀ k j : ℕ,
    powerLoop c7N k ⟨c7w j / c7n j, 0, 0, c7z j / c7n j⟩
      = ⟨c7w (j + k) / c7n (j + k), 0, 0, c7z (j + k) / c7n (j + k)⟩ := by
  intro k
  induction k with
  | zero => intro j; simp [powerLoop]
  | succ k ih =>
    intro j
    have hnej := ne_of_gt (c7n_pos j)
    have hnej1 := ne_of_gt (c7n_pos (j + 1))
    have hlen0 : ¬ Real.sqrt
        (Quat4.normSq (c7N.mulQuat ⟨c7w j / c7n j, 0, 0, c7z j / c7n j⟩)) < 1e-10 := by
      rw [c7_mulQuat j, c7_len j]
      exact c7_len_ge j
    rw [powerLoop_step c7N k _ hlen0, c7_mulQuat j, c7_len j]
    dsimp only
    have harg : (⟨c7w (j + 1) / c7n j / (c7n (j + 1) / c7n j),
        0 / (c7n (j + 1) / c7n j), 0 / (c7n (j + 1) / c7n j),
        c7z (j + 1) / c7n j / (c7n (j + 1) / c7n j)⟩ : Quat4)
        = ⟨c7w (j + 1) / c7n (j + 1), 0, 0, c7z (j + 1) / c7n (j + 1)⟩ := by
      rw [Quat4.mk.injEq]
      refine ⟨?_, by simp, by simp, ?_⟩ <;> field_simp
    rw [harg, ih (j + 1), show j + 1 + k = j + (k + 1) from by omega]

theorem c7_buildH : buildH c7src c7dst ⟨0, 0, 0⟩ ⟨0, 0, 0⟩
    = ⟨0, 1, 0, -1, 0, 0, 0, 0, 1⟩ := by
  unfold buildH c7src c7dst hStep Mat3.zero
  simp only [List.zip_cons_cons, List.zip_nil_right, List.foldl_cons, List.foldl_nil]
  rw [Mat3.mk.injEq]
  norm_num

theorem c7_key : buildN ⟨0, 1, 0, -1, 0, 0, 0, 0, 1⟩ = c7N := by
  unfold buildN c7N
  rw [Mat4.mk.injEq]
  norm_num

theorem c7_seed : (⟨1, 0, 0, 0⟩ : Quat4) = ⟨c7w 0 / c7n 0, 0, 0, c7z 0 / c7n 0⟩ := by
  have hw : c7w 0 = 1 := by unfold c7w; norm_num
  have hz : c7z 0 = 0 := by unfold c7z; norm_num
  have hn : c7n 0 = 1 := by
    unfold c7n
    rw [hw, hz]
    norm_num
  rw [hw, hz, hn]
  norm_num

/-- Claim C7: for source = unit basis vectors and destination = the same
vectors rotated 90 degrees about Z (with the zero centroids the
repository's test passes), the rotation returned by
`computeOptimalRotation` through its 50-iteration power loop maps
`(1,0,0)` to `(0,1,0)` with every component within `1e-3`. -/
theorem claim_C7 :
    |(applyMat4 (computeOptimalRotation c7src c7dst ⟨0, 0, 0⟩ ⟨0, 0, 0⟩) ⟨1, 0, 0⟩).x - 0|
        < 1e-3
      ∧ |(applyMat4 (computeOptimalRotation c7src c7dst ⟨0, 0, 0⟩ ⟨0, 0, 0⟩) ⟨1, 0, 0⟩).y - 1|
        < 1e-3
      ∧ |(applyMat4 (computeOptimalRotation c7src c7dst ⟨0, 0, 0⟩ ⟨0, 0, 0⟩) ⟨1, 0, 0⟩).z - 0|
        < 1e-3 := by
  have hrot : computeOptimalRotation c7src c7dst ⟨0, 0, 0⟩ ⟨0, 0, 0⟩
      = quatToMat4 ⟨c7w 50 / c7n 50, 0, 0, c7z 50 / c7n 50⟩ := by
    unfold computeOptimalRotation
    rw [c7_buildH, c7_key, c7_seed, c7_powerLoop 50 0]
  have happ : applyMat4 (quatToMat4 ⟨c7w 50 / c7n 50, 0, 0, c7z 50 / c7n 50⟩) ⟨1, 0, 0⟩
      = ⟨1 - 2 * (c7z 50 / c7n 50) * (c7z 50 / c7n 50),
         2 * (c7z 50 / c7n 50) * (c7w 50 / c7n 50), 0⟩ := by
    unfold applyMat4 quatToMat4
    rw [Point3D.mk.injEq]
    dsimp only
    norm_num
  have hW : c7w 50 = ((3 : ℝ) ^ 50 + 1) / 2 := by
    unfold c7w
    norm_num
  have hZ : c7z 50 = ((3 : ℝ) ^ 50 - 1) / 2 := by
    unfold c7z
    norm_num
  have hnsq : c7n 50 * c7n 50 = ((9 : ℝ) ^ 50 + 1) / 2 := by
    rw [c7n_mul_self, c7_normSq]
  have hxval : 1 - 2 * (c7z 50 / c7n 50) * (c7z 50 / c7n 50)
      = 1 - 2 * (c7z 50 * c7z 50) / (((9 : ℝ) ^ 50 + 1) / 2) := by
    rw [← hnsq]
    ring
  have hyval : 2 * (c7z 50 / c7n 50) * (c7w 50 / c7n 50)
      = 2 * (c7z 50 * c7w 50) / (((9 : ℝ) ^ 50 + 1) / 2) := by
    rw [← hnsq]
    ring
  rw [hrot, happ]
  refine ⟨?_, ?_, ?_⟩
  · dsimp only
    rw [hxval, hZ, abs_lt]
    constructor <;> norm_num
  · dsimp only
    rw [hyval, hZ, hW, abs_lt]
    constructor <;> norm_num
  · dsimp only
    norm_num
